import Mathlib

/-!
Verification of the full-page-screenshot extension.

Shallow embedding of the three core pieces of the repository:
* `content_script.js` — scroll-container locator (`findScrollableElement`),
  capture preparation (`initCapture`, `hideFixedElements`) and restoration
  (`restorePage`);
* `background.js` — the capture orchestration loop (`captureLoop`,
  `finishCapture`) with its constants `OVERLAP` and `MAX_STEPS`;
* `result.js` — the stitcher (height computation and per-frame draw
  commands).

JavaScript numbers are modelled as `Int` (all quantities the claims touch
are integral); DOM elements are records of exactly the fields the source
reads.  Fire-and-forget progress messages carry no state the claims
mention and are not tracked beyond the progress-bar flag of the page
model.
-/

namespace Screenshot

/-! ## Scroll-container locator (`content_script.js`, `findScrollableElement`) -/

/-- A DOM element, restricted to the fields `findScrollableElement` reads:
computed style (`display`, `visibility`, `opacity`, `overflowY`), the
bounding client rect, and the client/scroll metrics. -/
structure Element where
  display : String
  visibility : String
  opacity : String
  overflowY : String
  rectWidth : Int
  rectHeight : Int
  rectTop : Int
  rectBottom : Int
  rectLeft : Int
  rectRight : Int
  clientWidth : Int
  clientHeight : Int
  scrollHeight : Int
deriving DecidableEq, Repr

/-- The window viewport (`window.innerWidth` / `window.innerHeight`). -/
structure Viewport where
  innerWidth : Int
  innerHeight : Int
deriving DecidableEq, Repr

/-- A document as seen by the locator: the enumeration order of
`document.querySelectorAll` on all elements, the optional
`document.scrollingElement`, and `document.documentElement`. -/
structure Document where
  elements : List Element
  scrollingElement : Option Element
  documentElement : Element
deriving DecidableEq, Repr

/-- `isScrollable` helper of `findScrollableElement`: overflow-y is one of
`auto | scroll | overlay` and `scrollHeight > clientHeight`. -/
def isScrollable (el : Element) : Bool :=
  decide ((el.overflowY = "auto" ∨ el.overflowY = "scroll" ∨ el.overflowY = "overlay")
    ∧ el.clientHeight < el.scrollHeight)

/-- `isVisible` helper of `findScrollableElement`: rejects `display:none`,
`visibility:hidden`, `opacity:'0'`, a zero-width or zero-height bounding
rect, and rects fully outside the viewport.  (The source's null check is
unreachable here: the embedding only ever passes real elements.) -/
def isVisible (vp : Viewport) (el : Element) : Bool :=
  if el.display = "none" ∨ el.visibility = "hidden" ∨ el.opacity = "0" then false
  else if el.rectWidth = 0 ∨ el.rectHeight = 0 then false
  else if vp.innerHeight ≤ el.rectTop ∨ el.rectBottom ≤ 0
      ∨ vp.innerWidth ≤ el.rectLeft ∨ el.rectRight ≤ 0 then false
  else true

/-- The filter over `document.querySelectorAll('*')`: discard elements whose
client width/height is below half the viewport (the source compares
`el.clientWidth < window.innerWidth * 0.5`, which over integers is
`2 * clientWidth < innerWidth`), then require visibility and
scrollability. -/
def candidateFilter (vp : Viewport) (el : Element) : Bool :=
  if 2 * el.clientWidth < vp.innerWidth ∨ 2 * el.clientHeight < vp.innerHeight then false
  else isVisible vp el && isScrollable el

def filteredCandidates (vp : Viewport) (doc : Document) : List Element :=
  doc.elements.filter (candidateFilter vp)

/-- The full candidate list: filtered elements, plus
`document.scrollingElement` pushed at the end whenever its `scrollHeight`
exceeds its `clientHeight` (no visibility check in the source). -/
def candidatesOf (vp : Viewport) (doc : Document) : List Element :=
  filteredCandidates vp doc ++
    (match doc.scrollingElement with
     | some se => if se.clientHeight < se.scrollHeight then [se] else []
     | none => [])

/-- The comparator `(a, b) => b.scrollHeight - a.scrollHeight` passed to the
(stable, per ES2019) `Array.prototype.sort`: `a` precedes `b` when
`b.scrollHeight ≤ a.scrollHeight`. -/
def byScrollHeightDesc (a b : Element) : Prop :=
  b.scrollHeight ≤ a.scrollHeight

instance : DecidableRel byScrollHeightDesc := fun a b =>
  inferInstanceAs (Decidable (b.scrollHeight ≤ a.scrollHeight))

/-- `findScrollableElement`: filter, add the scrolling root, stable-sort by
`scrollHeight` descending, return the first candidate; fall back to
`document.documentElement` when there are no candidates. -/
def findScrollableElement (vp : Viewport) (doc : Document) : Element :=
  match List.insertionSort byScrollHeightDesc (candidatesOf vp doc) with
  | c :: _ => c
  | [] => doc.documentElement

/-- First element of maximal `scrollHeight` in enumeration order (ties go to
the earlier element).  This is the spec's words for step 6 of §4.1: "Sort
remaining candidates by content length descending; return the first.
Tie-break: stable by enumeration order." -/
def firstMaxList : List Element → Option Element
  | [] => none
  | b :: l =>
    some (match firstMaxList l with
      | none => b
      | some m => if m.scrollHeight ≤ b.scrollHeight then b else m)

/-- Modelled from the spec (§4.1 steps 6 and edge-case policy): return the
first candidate of maximal content length, falling back to the document's
root element when no candidate exists.  Used as the refinement target for
the locator's sort-and-pick step. -/
def specLocate (vp : Viewport) (doc : Document) : Element :=
  match firstMaxList (candidatesOf vp doc) with
  | some c => c
  | none => doc.documentElement

theorem head?_orderedInsert (b : Element) (s : List Element) :
    (List.orderedInsert byScrollHeightDesc b s).head? =
      some (match s.head? with
        | none => b
        | some c => if c.scrollHeight ≤ b.scrollHeight then b else c) := by
  cases s with
  | nil => rfl
  | cons c cs =>
    by_cases h : c.scrollHeight ≤ b.scrollHeight
    · simp [List.orderedInsert, byScrollHeightDesc, h]
    · simp [List.orderedInsert, byScrollHeightDesc, h]

theorem head?_insertionSort (l : List Element) :
    (List.insertionSort byScrollHeightDesc l).head? = firstMaxList l := by
  induction l with
  | nil => rfl
  | cons b l ih =>
    rw [List.insertionSort, head?_orderedInsert, firstMaxList, ih]

theorem mem_of_findScrollableElement {vp : Viewport} {doc : Document}
    (h : candidatesOf vp doc ≠ []) :
    findScrollableElement vp doc ∈ candidatesOf vp doc := by
  unfold findScrollableElement
  have hperm := List.perm_insertionSort byScrollHeightDesc (candidatesOf vp doc)
  match hs : List.insertionSort byScrollHeightDesc (candidatesOf vp doc) with
  | [] =>
    rw [hs] at hperm
    exact absurd (hperm.nil_eq.symm) h
  | c :: rest =>
    rw [hs] at hperm
    exact hperm.mem_iff.mp (List.mem_cons_self c rest)

theorem filtered_visible {vp : Viewport} {doc : Document} {el : Element}
    (h : el ∈ filteredCandidates vp doc) : isVisible vp el = true := by
  unfold filteredCandidates at h
  have hp := (List.mem_filter.mp h).2
  unfold candidateFilter at hp
  split at hp
  · exact absurd hp (by simp)
  · exact (Bool.and_eq_true _ _ |>.mp hp).1

/-! ### Concrete documents for the locator claims -/

/-- A 100×100 viewport. -/
def exViewport : Viewport := ⟨100, 100⟩

/-- A visible, non-scrollable root element. -/
def exRoot : Element :=
  { display := "block", visibility := "visible", opacity := "1", overflowY := "visible"
    rectWidth := 100, rectHeight := 100, rectTop := 0, rectBottom := 100
    rectLeft := 0, rectRight := 100, clientWidth := 100, clientHeight := 100
    scrollHeight := 100 }

/-- A `visibility:hidden` scrolling root (`document.scrollingElement`) whose
`scrollHeight` (100) exceeds its `clientHeight` (50): the source pushes it
as a candidate without any visibility check. -/
def exHiddenScroller : Element :=
  { display := "block", visibility := "hidden", opacity := "1", overflowY := "auto"
    rectWidth := 100, rectHeight := 100, rectTop := 0, rectBottom := 100
    rectLeft := 0, rectRight := 100, clientWidth := 100, clientHeight := 50
    scrollHeight := 100 }

/-- A quirks-mode-style document: no element survives the filter, and the
native scrolling root is hidden yet scrollable, and distinct from
`documentElement`. -/
def exHiddenDoc : Document :=
  ⟨[exRoot, exHiddenScroller], some exHiddenScroller, exRoot⟩

/-- A document with no candidates at all. -/
def exEmptyDoc : Document := ⟨[], none, exRoot⟩

/-- A visible scrollable candidate with content length 1000. -/
def exSmallScroller : Element :=
  { display := "block", visibility := "visible", opacity := "1", overflowY := "auto"
    rectWidth := 100, rectHeight := 100, rectTop := 0, rectBottom := 100
    rectLeft := 0, rectRight := 100, clientWidth := 100, clientHeight := 100
    scrollHeight := 1000 }

/-- A visible scrollable candidate with content length 5000. -/
def exBigScroller : Element :=
  { display := "block", visibility := "visible", opacity := "1", overflowY := "scroll"
    rectWidth := 100, rectHeight := 100, rectTop := 0, rectBottom := 100
    rectLeft := 0, rectRight := 100, clientWidth := 100, clientHeight := 100
    scrollHeight := 5000 }

/-- Document with the 1000-unit scroller enumerated before the 5000-unit
one. -/
def exTieDoc : Document := ⟨[exSmallScroller, exBigScroller], none, exRoot⟩

/-! ### Claim C1 -/

/-- Claim C1, counterexample: on a document whose only surviving candidate
is the `visibility:hidden` native scrolling root, `findScrollableElement`
returns that invisible element, which is not the document's root element —
so the locator can return an invisible element without falling back to the
root. -/
theorem locator_returns_invisible_scroll_root :
    ¬(isVisible exViewport (findScrollableElement exViewport exHiddenDoc) = true
      ∨ findScrollableElement exViewport exHiddenDoc = exHiddenDoc.documentElement) := by
  decide

/-- Claim C1 (amended): every candidate surviving the element filter is
visible, so the locator returns either a visible element, or the document's
native scrolling root (which is added as a candidate without any visibility
check whenever its content length exceeds its visible length), or — when no
candidate survives at all — the document's root element. -/
theorem locator_visibility_characterization (vp : Viewport) (doc : Document) :
    (candidatesOf vp doc = [] → findScrollableElement vp doc = doc.documentElement) ∧
    (isVisible vp (findScrollableElement vp doc) = true
      ∨ doc.scrollingElement = some (findScrollableElement vp doc)
      ∨ findScrollableElement vp doc = doc.documentElement) := by
  constructor
  · intro h
    simp [findScrollableElement, h]
  · by_cases hc : candidatesOf vp doc = []
    · right; right
      simp [findScrollableElement, hc]
    · have hm := mem_of_findScrollableElement hc
      unfold candidatesOf at hm
      rcases List.mem_append.mp hm with hf | hs
      · exact Or.inl (filtered_visible hf)
      · right
        cases hse : doc.scrollingElement with
        | none => rw [hse] at hs; simp at hs
        | some se =>
          rw [hse] at hs
          by_cases hq : se.clientHeight < se.scrollHeight
          · simp only [hq, if_true] at hs
            simp only [List.mem_singleton] at hs
            exact Or.inl (by rw [hs])
          · simp only [hq, if_false] at hs
            simp at hs

/-- Witness for the amended C1: a document with no candidates falls back to
the root element. -/
theorem locator_visibility_characterization_witness :
    candidatesOf exViewport exEmptyDoc = [] ∧
    findScrollableElement exViewport exEmptyDoc = exEmptyDoc.documentElement :=
  ⟨by decide, (locator_visibility_characterization exViewport exEmptyDoc).1 (by decide)⟩

/-! ### Claim C2 -/

/-- Claim C2: the candidate list is the filtered enumeration with the native
scrolling root appended as a low-priority (last) candidate exactly when its
content length exceeds its visible length; the locator returns the first
candidate of maximal content length (stable tie-break by enumeration
order, as in the spec's `specLocate`); and on two visible scrollable
candidates of content lengths 1000 and 5000 it returns the 5000-unit
one. -/
theorem locator_sorts_by_content_descending :
    (∀ vp doc, candidatesOf vp doc =
      filteredCandidates vp doc ++
        (match doc.scrollingElement with
         | some se => if se.clientHeight < se.scrollHeight then [se] else []
         | none => [])) ∧
    (∀ vp doc, findScrollableElement vp doc = specLocate vp doc) ∧
    findScrollableElement exViewport exTieDoc = exBigScroller := by
  refine ⟨fun vp doc => rfl, fun vp doc => ?_, by decide⟩
  have h := head?_insertionSort (candidatesOf vp doc)
  rcases hs : List.insertionSort byScrollHeightDesc (candidatesOf vp doc) with _ | ⟨c, rest⟩
  · rw [hs] at h
    simp only [List.head?] at h
    simp [findScrollableElement, specLocate, hs, ← h]
  · rw [hs] at h
    simp only [List.head?] at h
    simp [findScrollableElement, specLocate, hs, ← h]

/-! ## Capture orchestrator (`background.js`) -/

/-- `const OVERLAP = 80`. -/
def OVERLAP : Int := 80

/-- `const MAX_STEPS = 50`. -/
def MAX_STEPS : Nat := 50

/-- Why a session ended (ghost instrumentation of the four `finishCapture`
call sites in `captureLoop`). -/
inductive FinishReason
  | maxSteps
  | captureFail
  | stuck
  | complete
deriving DecidableEq, Repr

/-- One captured frame: the logical offset actually reached and the opaque
captured image (`dataUrl` modelled as a number). -/
structure BFrame where
  y : Int
  img : Nat
deriving DecidableEq, Repr

/-- The per-tab session state of `background.js`, plus ghost fields
recording the observable actions: the scroll requests issued
(`scrollRequests`), whether and with which offset a `RESTORE` message was
sent (`restoreSent`), the frames handed to the stitcher via storage
(`handed`), the finish reason, and a finished flag standing for the state
deletion in `finishCapture`. -/
structure BgState where
  images : List BFrame
  fullHeight : Int
  visibleHeight : Int
  devicePixelRatio : Int
  originalScrollY : Int
  currentY : Int
  prevY : Option Int
  steps : Nat
  scrollRequests : List Int
  finished : Bool
  reason : Option FinishReason
  restoreSent : Option Int
  handed : Option (List BFrame)
deriving DecidableEq, Repr

/-- The environment of one session: per step index, the `SCROLL_TO` response
(`none` models a missing response or a response without an `actualY`
field) and the `captureVisibleTab` result (`none` models
`chrome.runtime.lastError` or a missing `dataUrl`). -/
structure Env where
  scrollResp : Nat → Option Int
  capture : Nat → Option Nat

/-- The session state created by `startCapture` from the `INIT_CAPTURE`
metrics. -/
def initState (fullHeight visibleHeight devicePixelRatio originalScrollY : Int) : BgState :=
  { images := [], fullHeight, visibleHeight, devicePixelRatio, originalScrollY
    currentY := 0, prevY := none, steps := 0, scrollRequests := []
    finished := false, reason := none, restoreSent := none, handed := none }

/-- `finishCapture`: sends `RESTORE` with the recorded `originalScrollY`,
stores the session (frames included) for the result page, and deletes the
session state. -/
def finishCapture (r : FinishReason) (t : BgState) : BgState :=
  { t with finished := true, reason := some r
           restoreSent := some t.originalScrollY
           handed := some t.images }

/-- Line 113 of `background.js`: use the response's `actualY` when present,
otherwise fall back to the requested `currentY`. -/
def effActualY (env : Env) (s : BgState) : Int :=
  match env.scrollResp s.steps with
  | some y => y
  | none => s.currentY

/-- Outcome of one iteration of `captureLoop` after the step-limit guard:
either finish with a reason, or continue with the updated state. -/
inductive IterResult
  | finish (r : FinishReason) (t : BgState)
  | next (t : BgState)
deriving Repr

/-- The state carried by an iteration outcome. -/
def stateOfIter : IterResult → BgState
  | .finish _ t => t
  | .next t => t

/-- The body of `captureLoop` after the `steps >= MAX_STEPS` guard:
increment `steps`, issue the scroll request for `currentY`, take the
effective `actualY`, attempt the capture (failure finishes the session),
append the frame, compute `nextY = actualY + visibleHeight - OVERLAP`,
run stuck detection against `prevY`, update the cursors, and finish when
`actualY + visibleHeight >= fullHeight`.  The `UPDATE_PROGRESS` message is
fire-and-forget and carries no session state, so it is not recorded. -/
def captureIterBody (env : Env) (s : BgState) : IterResult :=
  let s1 : BgState :=
    { s with steps := s.steps + 1, scrollRequests := s.scrollRequests ++ [s.currentY] }
  let actualY : Int := effActualY env s
  match env.capture s.steps with
  | none => .finish .captureFail s1
  | some img =>
    let s2 : BgState := { s1 with images := s1.images ++ [⟨actualY, img⟩] }
    let nextY : Int := actualY + s.visibleHeight - OVERLAP
    if s.prevY = some actualY then .finish .stuck s2
    else
      let s3 : BgState := { s2 with prevY := some actualY, currentY := nextY }
      if s.fullHeight ≤ actualY + s.visibleHeight then .finish .complete s3
      else .next s3

/-- The recursion of `captureLoop`, driven by the quantity
`MAX_STEPS - steps`, which the step-limit guard makes strictly decrease:
at zero remaining steps the guard `steps >= MAX_STEPS` fires (the two
conditions coincide on every state reachable from `captureLoop`). -/
def captureLoopGo (env : Env) : Nat → BgState → BgState
  | 0, s => finishCapture .maxSteps s
  | n + 1, s =>
    if MAX_STEPS ≤ s.steps then finishCapture .maxSteps s
    else
      match captureIterBody env s with
      | .finish r t => finishCapture r t
      | .next t => captureLoopGo env n t

/-- `captureLoop`. -/
def captureLoop (env : Env) (s : BgState) : BgState :=
  captureLoopGo env (MAX_STEPS - s.steps) s

theorem captureIterBody_next_steps {env : Env} {s t : BgState}
    (h : captureIterBody env s = .next t) : t.steps = s.steps + 1 := by
  unfold captureIterBody at h
  cases hc : env.capture s.steps with
  | none => simp [hc] at h
  | some img =>
    simp only [hc] at h
    split at h
    · simp at h
    · split at h
      · simp at h
      · cases h
        rfl

/-- The embedding satisfies the source's recursion equation: guard on the
step limit, run the body, recurse on `next`. -/
theorem captureLoop_eq (env : Env) (s : BgState) :
    captureLoop env s =
      if MAX_STEPS ≤ s.steps then finishCapture .maxSteps s
      else
        match captureIterBody env s with
        | .finish r t => finishCapture r t
        | .next t => captureLoop env t := by
  unfold captureLoop
  by_cases h : MAX_STEPS ≤ s.steps
  · have h0 : MAX_STEPS - s.steps = 0 := Nat.sub_eq_zero_of_le h
    rw [h0]
    simp [captureLoopGo, h]
  · have hlt : s.steps < MAX_STEPS := Nat.lt_of_not_le h
    obtain ⟨n, hn⟩ : ∃ n, MAX_STEPS - s.steps = n + 1 :=
      ⟨MAX_STEPS - s.steps - 1, by omega⟩
    rw [hn]
    simp only [captureLoopGo, h, if_false]
    cases hb : captureIterBody env s with
    | finish r t => rfl
    | next t =>
      have ht := captureIterBody_next_steps hb
      have : n = MAX_STEPS - t.steps := by omega
      rw [this]

theorem iter_scrollRequests (env : Env) (s : BgState) :
    (stateOfIter (captureIterBody env s)).scrollRequests = s.scrollRequests ++ [s.currentY] := by
  unfold captureIterBody
  cases hc : env.capture s.steps with
  | none => simp [stateOfIter]
  | some img =>
    simp only []
    split
    · simp [stateOfIter]
    · split
      · simp [stateOfIter]
      · simp [stateOfIter]

theorem iter_images_le (env : Env) (s : BgState) :
    (stateOfIter (captureIterBody env s)).images.length ≤ s.images.length + 1 := by
  unfold captureIterBody
  cases hc : env.capture s.steps with
  | none => simp [stateOfIter]
  | some img =>
    simp only []
    split
    · simp [stateOfIter]
    · split
      · simp [stateOfIter]
      · simp [stateOfIter]

theorem iter_originalScrollY (env : Env) (s : BgState) :
    (stateOfIter (captureIterBody env s)).originalScrollY = s.originalScrollY := by
  unfold captureIterBody
  cases hc : env.capture s.steps with
  | none => simp [stateOfIter]
  | some img =>
    simp only []
    split
    · simp [stateOfIter]
    · split
      · simp [stateOfIter]
      · simp [stateOfIter]

theorem go_finished (env : Env) : ∀ n s,
    (captureLoopGo env n s).finished = true ∧
    (captureLoopGo env n s).restoreSent = some (captureLoopGo env n s).originalScrollY ∧
    (captureLoopGo env n s).handed = some (captureLoopGo env n s).images ∧
    (captureLoopGo env n s).originalScrollY = s.originalScrollY := by
  intro n
  induction n with
  | zero => intro s; simp [captureLoopGo, finishCapture]
  | succ n ih =>
    intro s
    unfold captureLoopGo
    split
    · simp [finishCapture]
    · cases hb : captureIterBody env s with
      | finish r t =>
        have hoy : t.originalScrollY = s.originalScrollY := by
          have h := iter_originalScrollY env s
          rw [hb] at h
          exact h
        simp [finishCapture, hoy]
      | next t =>
        have hoy : t.originalScrollY = s.originalScrollY := by
          have h := iter_originalScrollY env s
          rw [hb] at h
          exact h
        have := ih t
        exact ⟨this.1, this.2.1, this.2.2.1, by rw [this.2.2.2, hoy]⟩

theorem go_counts (env : Env) : ∀ n s,
    (captureLoopGo env n s).images.length ≤ s.images.length + n ∧
    (captureLoopGo env n s).scrollRequests.length ≤ s.scrollRequests.length + n := by
  intro n
  induction n with
  | zero => intro s; simp [captureLoopGo, finishCapture]
  | succ n ih =>
    intro s
    unfold captureLoopGo
    split
    · simp [finishCapture]
    · cases hb : captureIterBody env s with
      | finish r t =>
        have h1 := iter_images_le env s
        have h2 := iter_scrollRequests env s
        rw [hb] at h1 h2
        simp only [stateOfIter] at h1 h2
        dsimp only
        constructor
        · simp [finishCapture]
          omega
        · simp [finishCapture, h2]
      | next t =>
        have h1 := iter_images_le env s
        have h2 := iter_scrollRequests env s
        rw [hb] at h1 h2
        simp only [stateOfIter] at h1 h2
        have := ih t
        dsimp only
        have h2l : t.scrollRequests.length = s.scrollRequests.length + 1 := by
          rw [h2]; simp
        constructor
        · omega
        · omega

/-! ### Claim C3 -/

/-- Claim C3: at the start of each iteration the step-limit guard finishes
the session before any further scroll or capture once `steps >= MAX_STEPS`;
hence, from a fresh session, the loop issues at most `MAX_STEPS = 50`
scroll requests and captures at most 50 frames, and always terminates in
the finished state. -/
theorem capture_loop_step_bound :
    (∀ env s, MAX_STEPS ≤ s.steps →
      captureLoop env s = finishCapture .maxSteps s) ∧
    (∀ env fullH visH dpr oY,
      (captureLoop env (initState fullH visH dpr oY)).scrollRequests.length ≤ MAX_STEPS ∧
      (captureLoop env (initState fullH visH dpr oY)).images.length ≤ MAX_STEPS ∧
      (captureLoop env (initState fullH visH dpr oY)).finished = true) := by
  constructor
  · intro env s h
    rw [captureLoop_eq, if_pos h]
  · intro env fullH visH dpr oY
    have hc := go_counts env (MAX_STEPS - (initState fullH visH dpr oY).steps)
      (initState fullH visH dpr oY)
    have hf := go_finished env (MAX_STEPS - (initState fullH visH dpr oY).steps)
      (initState fullH visH dpr oY)
    refine ⟨?_, ?_, hf.1⟩
    · have := hc.2
      simp [initState] at this ⊢
      unfold captureLoop
      simpa [initState] using this
    · have := hc.1
      simp [initState] at this ⊢
      unfold captureLoop
      simpa [initState] using this

/-- An environment whose page always reports offset 5 and whose captures
always succeed. -/
def envAlwaysFive : Env := ⟨fun _ => some 5, fun n => some n⟩

/-- A session state that has already consumed all 50 steps. -/
def stateAtLimit : BgState := { initState 1000 10 1 0 with steps := 50 }

/-- Witness for C3: the guard fires at the step limit, and a fresh session
captures at most 50 frames. -/
theorem capture_loop_step_bound_witness :
    captureLoop envAlwaysFive stateAtLimit = finishCapture .maxSteps stateAtLimit ∧
    (captureLoop envAlwaysFive (initState 1000 10 1 0)).images.length ≤ MAX_STEPS :=
  ⟨capture_loop_step_bound.1 envAlwaysFive stateAtLimit (by decide),
   (capture_loop_step_bound.2 envAlwaysFive 1000 10 1 0).2.1⟩

/-! ### Claim C4 -/

/-- Claim C4: when `prevY` is defined and the step's effective `actualY`
equals it, the loop performs that step's scroll request and then finishes
the session — no further scroll request is ever issued (the final request
log is the old log plus exactly this step's request). -/
theorem stuck_detection_finishes_step (env : Env) (s : BgState) (a : Int)
    (h1 : s.steps < MAX_STEPS) (h2 : s.prevY = some a) (h3 : effActualY env s = a) :
    (captureLoop env s).scrollRequests = s.scrollRequests ++ [s.currentY] ∧
    (captureLoop env s).finished = true := by
  rw [captureLoop_eq, if_neg (Nat.not_le.mpr h1)]
  unfold captureIterBody
  cases hc : env.capture s.steps with
  | none => simp [finishCapture]
  | some img =>
    simp only []
    rw [if_pos (by rw [h3, h2])]
    simp [finishCapture]

/-- A state mid-session, at offset 5 with the previous actual offset also
5. -/
def stateStuckAtFive : BgState :=
  { initState 1000 10 1 0 with
    steps := 3, currentY := 5, prevY := some 5, scrollRequests := [0] }

/-- Witness for C4: with a page that keeps reporting offset 5 after the
previous step already reported 5, this step's scroll is the last and the
session finishes. -/
theorem stuck_detection_finishes_step_witness :
    (captureLoop envAlwaysFive stateStuckAtFive).scrollRequests =
      stateStuckAtFive.scrollRequests ++ [stateStuckAtFive.currentY] ∧
    (captureLoop envAlwaysFive stateStuckAtFive).finished = true :=
  stuck_detection_finishes_step envAlwaysFive stateStuckAtFive 5
    (by decide) (by decide) (by decide)

/-! ### Claim C9 -/

/-- The environment with the scroll response at step `k` replaced by a
successful response reporting offset `y`. -/
def substEnv (env : Env) (k : Nat) (y : Int) : Env :=
  { env with scrollResp := fun n => if n = k then some y else env.scrollResp n }

/-- Claim C9: a missing `SCROLL_TO` response (or one without an `actualY`
field) makes the orchestrator substitute the requested offset: the
iteration behaves exactly as if the page had reported `currentY`, and, when
the capture succeeds, the step still appends its frame at `currentY` — a
failed scroll round-trip never by itself finishes the session. -/
theorem scroll_response_fallback (env : Env) (s : BgState)
    (h : env.scrollResp s.steps = none) :
    captureIterBody env s = captureIterBody (substEnv env s.steps s.currentY) s ∧
    ∀ img, env.capture s.steps = some img →
      (stateOfIter (captureIterBody env s)).images = s.images ++ [⟨s.currentY, img⟩] := by
  have heff : effActualY env s = s.currentY := by
    unfold effActualY
    rw [h]
  have heff2 : effActualY (substEnv env s.steps s.currentY) s = s.currentY := by
    unfold effActualY substEnv
    simp
  constructor
  · unfold captureIterBody
    rw [heff, heff2]
    rfl
  · intro img himg
    unfold captureIterBody
    rw [heff, himg]
    simp only []
    split
    · simp [stateOfIter]
    · split
      · simp [stateOfIter]
      · simp [stateOfIter]

/-- An environment whose page never answers scroll requests but always
captures successfully. -/
def envSilentScroll : Env := ⟨fun _ => none, fun _ => some 7⟩

/-- Witness for C9: with no scroll response at all, the first step appends
a frame at the requested offset 0. -/
theorem scroll_response_fallback_witness :
    (stateOfIter (captureIterBody envSilentScroll (initState 1000 10 1 0))).images =
      [⟨0, 7⟩] := by
  have h := (scroll_response_fallback envSilentScroll (initState 1000 10 1 0) rfl).2 7 rfl
  simpa [initState] using h

/-! ### Claim C10 -/

/-- Loop invariant for stuck detection: whenever `prevY` is defined, the
frame list is non-empty and its last frame was captured at that very
offset (each iteration that sets `prevY := actualY` also appended a frame
with `y = actualY`). -/
def lastMatchesPrev (s : BgState) : Prop :=
  ∀ a, s.prevY = some a → ∃ pre f, s.images = pre ++ [f] ∧ f.y = a

theorem captureIterBody_stuck_spec (env : Env) (s : BgState) (t : BgState)
    (h : captureIterBody env s = .finish .stuck t) :
    ∃ img, env.capture s.steps = some img ∧ s.prevY = some (effActualY env s) ∧
      t.images = s.images ++ [⟨effActualY env s, img⟩] := by
  unfold captureIterBody at h
  cases hc : env.capture s.steps with
  | none => rw [hc] at h; simp at h
  | some img =>
    rw [hc] at h
    simp only [] at h
    split at h
    · cases h
      exact ⟨img, rfl, by assumption, by simp⟩
    · split at h
      · simp at h
      · simp at h

theorem captureIterBody_next_spec (env : Env) (s : BgState) (t : BgState)
    (h : captureIterBody env s = .next t) :
    ∃ img, env.capture s.steps = some img ∧ t.prevY = some (effActualY env s) ∧
      t.images = s.images ++ [⟨effActualY env s, img⟩] := by
  unfold captureIterBody at h
  cases hc : env.capture s.steps with
  | none => rw [hc] at h; simp at h
  | some img =>
    rw [hc] at h
    simp only [] at h
    split at h
    · simp at h
    · split at h
      · simp at h
      · cases h
        exact ⟨img, rfl, rfl, by simp⟩

theorem go_stuck_dup (env : Env) : ∀ n s, lastMatchesPrev s →
    (captureLoopGo env n s).reason = some .stuck →
    ∃ pre f g, (captureLoopGo env n s).images = pre ++ [f, g] ∧ f.y = g.y := by
  intro n
  induction n with
  | zero =>
    intro s _ hr
    simp [captureLoopGo, finishCapture] at hr
  | succ n ih =>
    intro s hinv hr
    unfold captureLoopGo at hr ⊢
    by_cases hg : MAX_STEPS ≤ s.steps
    · rw [if_pos hg] at hr
      simp [finishCapture] at hr
    · rw [if_neg hg] at hr ⊢
      cases hb : captureIterBody env s with
      | finish r t =>
        rw [hb] at hr
        dsimp only at hr ⊢
        simp only [finishCapture] at hr
        have hrr : r = .stuck := by
          cases r <;> simp_all
        subst hrr
        obtain ⟨img, _, hprev, himg⟩ := captureIterBody_stuck_spec env s t hb
        obtain ⟨pre, f, hpre, hfy⟩ := hinv (effActualY env s) hprev
        refine ⟨pre, f, ⟨effActualY env s, img⟩, ?_, by simp [hfy]⟩
        simp [finishCapture, himg, hpre]
      | next t =>
        rw [hb] at hr
        dsimp only at hr ⊢
        apply ih t _ hr
        obtain ⟨img, _, hprev, himg⟩ := captureIterBody_next_spec env s t hb
        intro a ha
        rw [hprev] at ha
        cases ha
        exact ⟨s.images, ⟨effActualY env s, img⟩, himg, rfl⟩

/-- Claim C10: when a fresh session terminates via stuck detection, the
frame taken at the repeated offset was appended before the check ran, so
the finished frame list ends with two frames of equal `logicalY`, and the
full frame list (duplicates included) is what is handed to the
stitcher. -/
theorem stuck_finish_duplicate_tail (env : Env) (fullH visH dpr oY : Int)
    (h : (captureLoop env (initState fullH visH dpr oY)).reason = some .stuck) :
    (∃ pre f g, (captureLoop env (initState fullH visH dpr oY)).images = pre ++ [f, g] ∧
        f.y = g.y) ∧
    (captureLoop env (initState fullH visH dpr oY)).handed =
      some (captureLoop env (initState fullH visH dpr oY)).images := by
  constructor
  · apply go_stuck_dup env (MAX_STEPS - (initState fullH visH dpr oY).steps)
      (initState fullH visH dpr oY) _ h
    intro a ha
    simp [initState] at ha
  · exact (go_finished env (MAX_STEPS - (initState fullH visH dpr oY).steps)
      (initState fullH visH dpr oY)).2.2.1

/-- Witness for C10: the always-at-5 page gets stuck on the second step,
and the finished frame list ends with two frames at offset 5. -/
theorem stuck_finish_duplicate_tail_witness :
    ∃ pre f g, (captureLoop envAlwaysFive (initState 1000 10 1 0)).images =
        pre ++ [f, g] ∧ f.y = g.y :=
  (stuck_finish_duplicate_tail envAlwaysFive 1000 10 1 0 (by decide)).1

/-! ## Stitcher (`result.js`) -/

/-- One stored/loaded frame of the stitcher: the logical offset `y` it was
captured at, and the loaded image's device-pixel width and height
(`loadImage` pairs each image with its `y` and preserves order, so the
loaded list is the stored list). -/
structure SFrame where
  y : Int
  w : Int
  h : Int
deriving DecidableEq, Repr

/-- The `capturedData` record read from storage: the frame list and the
session's `devicePixelRatio` and `overlap` (optional, as the source guards
them with `|| 1` and `|| 0`). -/
structure StoredState where
  images : List SFrame
  devicePixelRatio : Option Int
  overlap : Option Int
deriving DecidableEq, Repr

/-- JavaScript `x || d` on a possibly-missing number: `d` when the value is
absent or zero. -/
def jsOrDefault (v : Option Int) (d : Int) : Int :=
  match v with
  | none => d
  | some x => if x = 0 then d else x

/-- A canvas draw command issued by the stitcher: either
`drawImage(img, dx, dy)` (full image) or the 9-argument
`drawImage(img, sx, sy, sw, sh, dx, dy, dw, dh)` crop-and-place form. -/
inductive DrawCmd
  | full (dx dy : Int)
  | cropped (sx sy sw sh dx dy dw dh : Int)
deriving DecidableEq, Repr

/-- The draw decision for the frame at position `i` (`result.js` lines
57–77): frame 0 is drawn in full at `(0, y * scale)`; a later frame is
cropped by `overlap * scale` device pixels from the top of its source and
the remainder drawn at `(0, y * scale + overlap * scale)`, or skipped
entirely when the cropped height is not positive. -/
def drawCmdFor (scale overlap : Int) (i : Nat) (f : SFrame) : Option DrawCmd :=
  let drawY := f.y * scale
  if i = 0 then some (.full 0 drawY)
  else
    let cropY := overlap * scale
    let cropHeight := f.h - cropY
    if 0 < cropHeight then
      some (.cropped 0 cropY f.w cropHeight 0 (drawY + cropY) f.w cropHeight)
    else none

/-- The full list of draw commands (frame positions paired with their
commands), in frame order. -/
def drawCmds (scale overlap : Int) (frames : List SFrame) : List (Nat × DrawCmd) :=
  frames.enum.filterMap fun p => (drawCmdFor scale overlap p.1 p.2).map fun c => (p.1, c)

/-- The user-visible outcome of the result page. -/
inductive RStatus
  | noData
  | loadFail
  | done
deriving DecidableEq, Repr

/-- What the result page produced: the status message class, the canvas
dimensions if any were set, and the draw commands issued. -/
structure RenderOut where
  status : RStatus
  canvas : Option (Int × Int)
  cmds : List (Nat × DrawCmd)
deriving DecidableEq, Repr

/-- The `DOMContentLoaded` flow of `result.js`: guard a missing state or an
empty frame list (no-data error, nothing drawn), read `scale` and
`overlap`, load the images (order-preserving), guard the (unreachable)
empty loaded list, set the canvas to the first frame's width and to
`lastFrame.y * scale + lastFrame.h`, and emit the draw commands. -/
def resultMain (st? : Option StoredState) : RenderOut :=
  match st? with
  | none => ⟨.noData, none, []⟩
  | some st =>
    if st.images.length = 0 then ⟨.noData, none, []⟩
    else
      let scale := jsOrDefault st.devicePixelRatio 1
      let overlap := jsOrDefault st.overlap 0
      match st.images with
      | [] => ⟨.loadFail, none, []⟩
      | f0 :: rest =>
        let width := f0.w
        let lastImg := (f0 :: rest).getLast (List.cons_ne_nil f0 rest)
        let totalHeight := lastImg.y * scale + lastImg.h
        ⟨.done, some (width, totalHeight), drawCmds scale overlap (f0 :: rest)⟩

/-! ### Claim C8 -/

/-- Claim C8: a missing state or an empty frame list yields the no-data
error, sets no canvas dimensions and draws nothing. -/
theorem stitch_empty_frames_no_data :
    resultMain none = ⟨.noData, none, []⟩ ∧
    ∀ dpr overlap, resultMain (some ⟨[], dpr, overlap⟩) = ⟨.noData, none, []⟩ := by
  exact ⟨rfl, fun dpr overlap => rfl⟩

/-! ### Claim C5 -/

/-- Claim C5: for a non-empty frame list the canvas height is
`(logicalY of the last frame) * pixelRatio + (device-pixel height of the
last frame's image)` (and the width is the first frame's image width). -/
theorem stitch_total_height_formula (st : StoredState) (f0 fl : SFrame)
    (h0 : st.images.head? = some f0) (hl : st.images.getLast? = some fl) :
    (resultMain (some st)).canvas =
      some (f0.w, fl.y * jsOrDefault st.devicePixelRatio 1 + fl.h) := by
  cases hi : st.images with
  | nil => rw [hi] at h0; simp at h0
  | cons g rest =>
    rw [hi] at h0 hl
    simp only [List.head?] at h0
    cases h0
    have hlast := List.getLast?_eq_getLast (f0 :: rest) (List.cons_ne_nil f0 rest)
    rw [hlast] at hl
    cases hl
    simp [resultMain, hi]

/-- Frames at logical offsets 0, 420, 840, each 1000 device pixels tall. -/
def exFrames : List SFrame := [⟨0, 800, 1000⟩, ⟨420, 800, 1000⟩, ⟨840, 800, 1000⟩]

/-- The stored state of the height-formula example: `pixelRatio = 2`,
`overlap = 80`. -/
def exStored : StoredState := ⟨exFrames, some 2, some 80⟩

/-- Witness for C5: offsets `[0, 420, 840]`, ratio 2, frame height 1000
give composite height `840 * 2 + 1000 = 2680`. -/
theorem stitch_total_height_formula_witness :
    (resultMain (some exStored)).canvas = some (800, 2680) := by
  have h := stitch_total_height_formula exStored ⟨0, 800, 1000⟩ ⟨840, 800, 1000⟩
    (by decide) (by decide)
  rw [h]
  decide

/-! ### Claim C6 -/

theorem mem_drawCmds {scale overlap : Int} {frames : List SFrame} {i : Nat} {c : DrawCmd} :
    (i, c) ∈ drawCmds scale overlap frames ↔
      ∃ f, frames[i]? = some f ∧ drawCmdFor scale overlap i f = some c := by
  unfold drawCmds
  rw [List.mem_filterMap]
  constructor
  · rintro ⟨⟨j, g⟩, hmem, hmap⟩
    rw [Option.map_eq_some'] at hmap
    obtain ⟨c', hc', heq⟩ := hmap
    cases heq
    exact ⟨g, List.mk_mem_enum_iff_getElem?.mp hmem, hc'⟩
  · rintro ⟨f, hget, hcmd⟩
    exact ⟨(i, f), List.mk_mem_enum_iff_getElem?.mpr hget, by rw [hcmd]; rfl⟩

/-- Claim C6: frame 0 is drawn in full at device position
`(0, logicalY * pixelRatio)`; every later frame `i` is drawn with its top
`overlap * pixelRatio` device pixels excluded from the source region, the
remainder placed at `(0, logicalY_i * pixelRatio + overlap * pixelRatio)`;
and when the cropped height is not positive no command at all is issued
for that frame. -/
theorem stitch_crop_placement (scale overlap : Int) (frames : List SFrame)
    (i : Nat) (f : SFrame) (hf : frames[i]? = some f) :
    (i = 0 → (i, DrawCmd.full 0 (f.y * scale)) ∈ drawCmds scale overlap frames) ∧
    (0 < i → 0 < f.h - overlap * scale →
      (i, DrawCmd.cropped 0 (overlap * scale) f.w (f.h - overlap * scale)
            0 (f.y * scale + overlap * scale) f.w (f.h - overlap * scale))
        ∈ drawCmds scale overlap frames) ∧
    (0 < i → f.h - overlap * scale ≤ 0 →
      ∀ c, (i, c) ∉ drawCmds scale overlap frames) := by
  refine ⟨?_, ?_, ?_⟩
  · intro hi
    subst hi
    exact mem_drawCmds.mpr ⟨f, hf, by simp [drawCmdFor]⟩
  · intro hi hcrop
    refine mem_drawCmds.mpr ⟨f, hf, ?_⟩
    unfold drawCmdFor
    rw [if_neg (Nat.pos_iff_ne_zero.mp hi), if_pos hcrop]
  · intro hi hcrop c hc
    obtain ⟨g, hg, hcmd⟩ := mem_drawCmds.mp hc
    rw [hf] at hg
    cases hg
    unfold drawCmdFor at hcmd
    rw [if_neg (Nat.pos_iff_ne_zero.mp hi), if_neg (by omega)] at hcmd
    exact Option.noConfusion hcmd

/-- Witness for C6: the second frame of the example (overlap 80, ratio 2)
is drawn with its top 160 device pixels excluded and placed at
`420 * 2 + 160`, as produced by the source's draw loop. -/
theorem stitch_crop_placement_witness :
    (1, DrawCmd.cropped 0 160 800 840 0 1000 800 840) ∈ drawCmds 2 80 exFrames := by
  have h := (stitch_crop_placement 2 80 exFrames 1 ⟨420, 800, 1000⟩ (by decide)).2.1
    (by decide) (by decide)
  simpa using h

/-! ## Page preparation and restoration (`content_script.js`) -/

/-- A page element as the preparation/restoration code sees it: its `id`
(used only to exclude the progress bar), its computed `position`, its
inline `style.visibility` and inline `style.position` (the latter is
recorded in the suppressed-style map but never replayed by the source). -/
structure PElem where
  id : String
  cssPosition : String
  visibility : String
  inlinePosition : String
deriving DecidableEq, Repr

/-- The in-document state touched by `initCapture`/`restorePage`: the
elements (addressed by index, standing for JS object identity), the inline
`overflow` of `documentElement` and of the scroll container, whether the
container is the root, the scroll offset of the active container, the
suppressed-style map (`originalStyles`, insertion order), and whether the
progress bar is mounted.  The progress bar is extension-created and not a
member of `elems`. -/
structure PageState where
  elems : List PElem
  rootOverflow : String
  containerOverflow : String
  containerIsRoot : Bool
  scrollPos : Int
  originalStyles : List (Nat × String × String)
  progressBar : Bool
deriving DecidableEq, Repr

/-- Whether `hideFixedElements` acts on an element: skip the progress bar,
then require computed position `fixed` or `sticky`. -/
def hideTarget (e : PElem) : Bool :=
  if e.id = "fps-extension-progress-bar" then false
  else decide (e.cssPosition = "fixed" ∨ e.cssPosition = "sticky")

/-- The suppressed-style map entries recorded by `hideFixedElements`:
`(element, {visibility, position})`, read from the pre-mutation inline
styles, in element order starting at index `k`. -/
def hideEntries : Nat → List PElem → List (Nat × String × String)
  | _, [] => []
  | k, e :: es =>
    (if hideTarget e then [(k, e.visibility, e.inlinePosition)] else []) ++
      hideEntries (k + 1) es

/-- The element mutation of `hideFixedElements`: targets get
`style.visibility = 'hidden'`. -/
def hideMask (es : List PElem) : List PElem :=
  es.map fun e => if hideTarget e then { e with visibility := "hidden" } else e

/-- `hideFixedElements`. -/
def hideFixedElements (p : PageState) : PageState :=
  { p with elems := hideMask p.elems
           originalStyles := p.originalStyles ++ hideEntries 0 p.elems }

/-- One replay step of `restorePage`'s `originalStyles.forEach`: set the
element's inline visibility back to the recorded value. -/
def applyRestoreEntry (es : List PElem) (entry : Nat × String × String) : List PElem :=
  match es[entry.1]? with
  | some el => es.set entry.1 { el with visibility := entry.2.1 }
  | none => es

/-- The full replay loop of `restorePage`. -/
def replayStyles (entries : List (Nat × String × String)) (es : List PElem) : List PElem :=
  entries.foldl applyRestoreEntry es

/-- `initCapture`'s page effects, paired with the returned
`originalScrollY`: record the current offset, mount the progress bar, hide
fixed/sticky elements, set the root's inline overflow to `hidden` and —
when the container is not the root — the container's too.  (The metrics
`fullHeight`/`visibleHeight`/`devicePixelRatio` feed the orchestrator's
`initState` and have no page effect.) -/
def initCapture (p : PageState) : PageState × Int :=
  let y0 := p.scrollPos
  let p1 := { p with progressBar := true }
  let p2 := hideFixedElements p1
  let p3 := { p2 with rootOverflow := "hidden"
                      containerOverflow :=
                        if p2.containerIsRoot then p2.containerOverflow else "hidden" }
  (p3, y0)

/-- `restorePage(savedScrollY)`: remove the progress bar, replay every
recorded visibility, clear the map, set the root's (and non-root
container's) inline overflow to the empty string, and scroll back to
`savedScrollY`. -/
def restorePage (savedScrollY : Int) (p : PageState) : PageState :=
  let p1 := { p with progressBar := false }
  let p2 := { p1 with elems := replayStyles p1.originalStyles p1.elems
                      originalStyles := [] }
  let p3 := { p2 with rootOverflow := ""
                      containerOverflow :=
                        if p2.containerIsRoot then p2.containerOverflow else "" }
  { p3 with scrollPos := savedScrollY }

/-- `scrollToAndReady`'s page effect: set the container's offset.  (Browser
clamping is part of the environment; the orchestrator model reads actual
offsets from `Env`.) -/
def pageScrollTo (y : Int) (p : PageState) : PageState :=
  { p with scrollPos := y }

/-- The scrolls performed between preparation and restoration. -/
def scrollFold (ys : List Int) (p : PageState) : PageState :=
  ys.foldl (fun q y => pageScrollTo y q) p

theorem get_append_len {α : Type} (pre : List α) (x : α) (rest : List α) :
    (pre ++ x :: rest)[pre.length]? = some x := by
  induction pre with
  | nil => simp
  | cons a as ih => simpa using ih

theorem set_append_len {α : Type} (pre : List α) (x y : α) (rest : List α) :
    (pre ++ x :: rest).set pre.length y = pre ++ y :: rest := by
  induction pre with
  | nil => rfl
  | cons a as ih => simp [ih]

/-- Replaying the recorded entries over the masked elements restores the
original element list exactly. -/
theorem replay_hide (l : List PElem) : ∀ pre : List PElem,
    replayStyles (hideEntries pre.length l) (pre ++ hideMask l) = pre ++ l := by
  induction l with
  | nil => intro pre; simp [replayStyles, hideEntries, hideMask]
  | cons e es ih =>
    intro pre
    by_cases ht : hideTarget e
    · have hmask : hideMask (e :: es) =
          { e with visibility := "hidden" } :: hideMask es := by
        simp [hideMask, ht]
      rw [hmask]
      rw [show hideEntries pre.length (e :: es) =
            (pre.length, e.visibility, e.inlinePosition) :: hideEntries (pre.length + 1) es by
        simp [hideEntries, ht]]
      unfold replayStyles
      rw [List.foldl_cons]
      rw [show applyRestoreEntry (pre ++ { e with visibility := "hidden" } :: hideMask es)
            (pre.length, e.visibility, e.inlinePosition) =
          pre ++ e :: hideMask es by
        unfold applyRestoreEntry
        rw [get_append_len]
        simp only []
        rw [set_append_len]]
      have := ih (pre ++ [e])
      simp only [List.length_append, List.length_cons, List.length_nil,
        List.append_assoc, List.singleton_append] at this
      simpa [replayStyles] using this
    · have hmask : hideMask (e :: es) = e :: hideMask es := by
        simp [hideMask, ht]
      rw [hmask]
      rw [show hideEntries pre.length (e :: es) = hideEntries (pre.length + 1) es by
        simp [hideEntries, ht]]
      have := ih (pre ++ [e])
      simp only [List.length_append, List.length_cons, List.length_nil,
        List.append_assoc, List.singleton_append] at this
      simpa [replayStyles] using this

theorem scrollFold_only_scroll (ys : List Int) : ∀ p : PageState,
    (scrollFold ys p).elems = p.elems ∧
    (scrollFold ys p).originalStyles = p.originalStyles ∧
    (scrollFold ys p).progressBar = p.progressBar ∧
    (scrollFold ys p).rootOverflow = p.rootOverflow ∧
    (scrollFold ys p).containerOverflow = p.containerOverflow ∧
    (scrollFold ys p).containerIsRoot = p.containerIsRoot := by
  induction ys with
  | nil => intro p; simp [scrollFold]
  | cons y ys ih =>
    intro p
    have := ih (pageScrollTo y p)
    simpa [scrollFold, pageScrollTo] using this

/-! ### Claim C7 -/

/-- A page whose root carries a non-empty inline `overflow` (`scroll`) and
one fixed-position element. -/
def exOverflowPage : PageState :=
  { elems := [⟨"hdr", "fixed", "", "static"⟩]
    rootOverflow := "scroll", containerOverflow := "", containerIsRoot := true
    scrollPos := 3, originalStyles := [], progressBar := false }

/-- Claim C7, counterexample: `restorePage` sets the root's inline
`overflow` to the empty string instead of the value it had before
preparation (the source never records it), so on a page whose root had
inline `overflow: scroll` the overflow styling is not restored. -/
theorem restore_clears_inline_overflow :
    ¬(restorePage (initCapture exOverflowPage).2
        (scrollFold [5] (initCapture exOverflowPage).1)).rootOverflow =
      exOverflowPage.rootOverflow := by
  decide

/-- Claim C7 (amended): on every finishing path the orchestrator sends
`RESTORE` carrying the recorded original offset; on the page, restoration
replays every recorded original visibility exactly (the element list is
restored verbatim), fully drains the suppressed-style map, removes the
progress indicator, and sets the scroll offset back to the recorded
original offset — while the inline overflow styling forced to `hidden`
during preparation is cleared to the empty string rather than restored to
a recorded value (so it is restored exactly only when it was initially
empty). -/
theorem restore_replays_saved_state :
    (∀ env fullH visH dpr oY,
      (captureLoop env (initState fullH visH dpr oY)).restoreSent = some oY ∧
      (captureLoop env (initState fullH visH dpr oY)).finished = true) ∧
    (∀ (p : PageState) (ys : List Int), p.originalStyles = [] →
      (restorePage (initCapture p).2 (scrollFold ys (initCapture p).1)).elems = p.elems ∧
      (restorePage (initCapture p).2 (scrollFold ys (initCapture p).1)).originalStyles = [] ∧
      (restorePage (initCapture p).2 (scrollFold ys (initCapture p).1)).progressBar = false ∧
      (restorePage (initCapture p).2 (scrollFold ys (initCapture p).1)).rootOverflow = "" ∧
      (restorePage (initCapture p).2 (scrollFold ys (initCapture p).1)).containerOverflow =
        (if p.containerIsRoot then p.containerOverflow else "") ∧
      (restorePage (initCapture p).2 (scrollFold ys (initCapture p).1)).scrollPos =
        p.scrollPos) := by
  constructor
  · intro env fullH visH dpr oY
    have hf := go_finished env (MAX_STEPS - (initState fullH visH dpr oY).steps)
      (initState fullH visH dpr oY)
    have hoy : (initState fullH visH dpr oY).originalScrollY = oY := rfl
    exact ⟨by rw [show captureLoop env (initState fullH visH dpr oY) =
        captureLoopGo env (MAX_STEPS - (initState fullH visH dpr oY).steps)
          (initState fullH visH dpr oY) from rfl, hf.2.1, hf.2.2.2, hoy], hf.1⟩
  · intro p ys h
    obtain ⟨he, ho, hb, hro, hco, hcr⟩ := scrollFold_only_scroll ys (initCapture p).1
    have hrep := replay_hide p.elems []
    simp only [List.length_nil, List.nil_append] at hrep
    have hq1 : ((initCapture p).1).elems = hideMask p.elems := by
      simp [initCapture, hideFixedElements]
    have hq2 : ((initCapture p).1).originalStyles = hideEntries 0 p.elems := by
      simp [initCapture, hideFixedElements, h]
    have hq3 : ((initCapture p).1).containerIsRoot = p.containerIsRoot := by
      simp [initCapture, hideFixedElements]
    have hq4 : ((initCapture p).1).containerOverflow =
        (if p.containerIsRoot then p.containerOverflow else "hidden") := by
      simp [initCapture, hideFixedElements]
    have hy : (initCapture p).2 = p.scrollPos := rfl
    refine ⟨?_, rfl, rfl, rfl, ?_, hy⟩
    · show replayStyles (scrollFold ys (initCapture p).1).originalStyles
        (scrollFold ys (initCapture p).1).elems = p.elems
      rw [ho, he, hq1, hq2]
      exact hrep
    · show (if (scrollFold ys (initCapture p).1).containerIsRoot
          then (scrollFold ys (initCapture p).1).containerOverflow else "") =
        (if p.containerIsRoot then p.containerOverflow else "")
      rw [hcr, hco, hq3, hq4]
      by_cases hc : p.containerIsRoot <;> simp [hc]

/-- A page with a fixed-position navigation bar carrying an inline
visibility value, a static element, and scroll offset 42. -/
def exRestorePage : PageState :=
  { elems := [⟨"nav", "fixed", "inline-vis", "static"⟩, ⟨"txt", "static", "", "static"⟩]
    rootOverflow := "", containerOverflow := "", containerIsRoot := true
    scrollPos := 42, originalStyles := [], progressBar := false }

/-- Witness for the amended C7: after preparing, scrolling to 7 and
restoring, the fixed element's inline visibility is back to its original
value, the map is drained, the bar is gone, and the offset is 42 again. -/
theorem restore_replays_saved_state_witness :
    (restorePage (initCapture exRestorePage).2
        (scrollFold [7] (initCapture exRestorePage).1)).elems = exRestorePage.elems ∧
    (restorePage (initCapture exRestorePage).2
        (scrollFold [7] (initCapture exRestorePage).1)).scrollPos =
      exRestorePage.scrollPos :=
  ⟨(restore_replays_saved_state.2 exRestorePage [7] rfl).1,
   (restore_replays_saved_state.2 exRestorePage [7] rfl).2.2.2.2.2⟩

end Screenshot
